import Mathlib

/-!
Verification development for the home-inventory repository.

The repository contains several near-duplicate variants of the same
client-side inventory application:

* `src/script.js` holds three concatenated script variants.  The first
  (referred to below with suffix `A`) persists to localStorage and to a
  GitHub contents endpoint; the third (suffix `C`) persists only to the
  GitHub contents endpoint and regenerates identifiers on load.  The
  second variant shares its `loadInventory`/normalization code with the
  third.
* `src/unnamed/part_001` (suffix `P1`) is a fourth variant that keeps the
  last-known GitHub `sha` of the stored document in a module variable
  `currentSha`.

The definitions below are a shallow embedding of those scripts.  JS values
are modelled by `JsVal`; JS numbers by `JsNum`: either NaN or a finite
decimal `Dec` (an integer mantissa scaled by a power of ten, kept in the
canonical form produced by `Dec.mk'`).  Every number the scripts build is
a decimal literal, so this representation is exact for them; non-decimal
`Number(...)` forms (hex, exponent, `Infinity`) never occur in the
scripts' data and are modelled as NaN, as noted at `jsStrToNum`.
-/

/-- A finite decimal `m / 10 ^ e`.  All construction in this development
goes through `Dec.mk'`, which produces the canonical representative, so
structural equality of `Dec` is value equality. -/
structure Dec where
  m : Int
  e : Nat
deriving DecidableEq

/-- Remove factors of ten: `stripTens m e` divides `m` by 10 as long as it
is divisible and the exponent lasts, returning the reduced pair. -/
def stripTens : Int → Nat → Int × Nat
  | m, 0 => (m, 0)
  | m, Nat.succ e => if m % 10 = 0 then stripTens (m / 10) e else (m, e + 1)

/-- Canonical constructor for `Dec`: the value `m / 10 ^ e` in lowest
decimal terms (zero is always `⟨0, 0⟩`). -/
def Dec.mk' (m : Int) (e : Nat) : Dec :=
  if m = 0 then ⟨0, 0⟩ else ⟨(stripTens m e).1, (stripTens m e).2⟩

/-- JS numbers as used by the scripts: NaN or a finite decimal value. -/
inductive JsNum where
  | nan : JsNum
  | finite : Dec → JsNum
deriving DecidableEq

/-- JS values that flow through the inventory scripts. -/
inductive JsVal where
  | undef : JsVal
  | null : JsVal
  | str : String → JsVal
  | num : JsNum → JsVal
  | bool : Bool → JsVal
deriving DecidableEq

/-- Shorthand for a finite numeric JS value with integer mantissa `m` and
scale `e` (built canonically). -/
def jnum (m : Int) (e : Nat) : JsVal := .num (.finite (Dec.mk' m e))

/-- JS truthiness of a value. -/
def truthy : JsVal → Bool
  | .undef => false
  | .null => false
  | .str s => decide (s ≠ "")
  | .num .nan => false
  | .num (.finite d) => decide (d.m ≠ 0)
  | .bool b => b

/-- The JS `a || b` operator: `a` if truthy, otherwise `b`. -/
def jsOr (a b : JsVal) : JsVal := if truthy a then a else b

/-- The JS `typeof v === 'number'` test. -/
def isNumberVal : JsVal → Bool
  | .num _ => true
  | _ => false

/-- Whitespace recognised by the modelled `trim` (the ASCII subset of the
JS whitespace class; the scripts only process ASCII input). -/
def isJsSpace (c : Char) : Bool :=
  c == ' ' || c == '\t' || c == '\n' || c == '\r'

/-- Drop whitespace from both ends of a character list. -/
def trimChars (l : List Char) : List Char :=
  ((l.dropWhile isJsSpace).reverse.dropWhile isJsSpace).reverse

/-- The JS `String.prototype.trim`. -/
def strTrim (s : String) : String := ⟨trimChars s.data⟩

/-- The JS `String.prototype.toLowerCase`, on the ASCII range. -/
def lowerStr (s : String) : String := ⟨s.data.map Char.toLower⟩

/-- Substring test on character lists (JS `String.prototype.includes`). -/
def listContains (hay pat : List Char) : Bool :=
  hay.tails.any (fun t => pat.isPrefixOf t)

/-- The JS `hay.includes(pat)`. -/
def strContainsSub (hay pat : String) : Bool := listContains hay.data pat.data

/-- Numeric value of a digit character. -/
def digitVal (c : Char) : Nat := c.toNat - '0'.toNat

/-- Value of a digit string read in base 10. -/
def natOfDigits (l : List Char) : Nat :=
  l.foldl (fun acc c => acc * 10 + digitVal c) 0

/-- The JS `Number(string)` coercion, for the decimal literals the scripts
handle.  Whitespace-only input is 0; an optional sign followed by digits
with an optional fraction part parses to its value; anything else
(including hex, exponent and `Infinity` forms, which never occur in the
scripts' data) is NaN. -/
def jsStrToNum (s : String) : JsNum :=
  let cs := trimChars s.data
  if cs = [] then .finite (Dec.mk' 0 0)
  else
    let signed : Int × List Char :=
      match cs with
      | '-' :: rest => (-1, rest)
      | '+' :: rest => (1, rest)
      | _ => (1, cs)
    let ints := signed.2.takeWhile Char.isDigit
    let rest := signed.2.dropWhile Char.isDigit
    match rest with
    | [] =>
      if ints = [] then .nan
      else .finite (Dec.mk' (signed.1 * (natOfDigits ints : Int)) 0)
    | '.' :: rest2 =>
      let fracs := rest2.takeWhile Char.isDigit
      let rest3 := rest2.dropWhile Char.isDigit
      if rest3 ≠ [] then .nan
      else if ints = [] ∧ fracs = [] then .nan
      else .finite (Dec.mk' (signed.1 * (natOfDigits (ints ++ fracs) : Int)) fracs.length)
    | _ => .nan

/-- The JS `parseFloat(string)`: parses the longest numeric prefix after
leading whitespace; NaN when no digits are found. -/
def jsParseFloat (s : String) : JsNum :=
  let cs := s.data.dropWhile isJsSpace
  let signed : Int × List Char :=
    match cs with
    | '-' :: rest => (-1, rest)
    | '+' :: rest => (1, rest)
    | _ => (1, cs)
  let ints := signed.2.takeWhile Char.isDigit
  let rest := signed.2.dropWhile Char.isDigit
  let fracs :=
    match rest with
    | '.' :: r2 => r2.takeWhile Char.isDigit
    | _ => []
  if ints = [] ∧ fracs = [] then .nan
  else .finite (Dec.mk' (signed.1 * (natOfDigits (ints ++ fracs) : Int)) fracs.length)

/-- The JS `Number(v)` coercion. -/
def toNumber : JsVal → JsNum
  | .undef => .nan
  | .null => .finite (Dec.mk' 0 0)
  | .bool b => .finite (Dec.mk' (if b then 1 else 0) 0)
  | .num n => n
  | .str s => jsStrToNum s

/-- String rendering of a JS number.  Integral values render exactly as in
JS; non-integral values never reach a string position in the proofs below
and are rendered in mantissa-exponent form. -/
def jsNumToStr : JsNum → String
  | .nan => "NaN"
  | .finite d => if d.e = 0 then toString d.m else toString d.m ++ "e-" ++ toString d.e

/-- JS string coercion of a value, as performed by template literals. -/
def jsToStr : JsVal → String
  | .undef => "undefined"
  | .null => "null"
  | .str s => s
  | .num n => jsNumToStr n
  | .bool b => if b then "true" else "false"

/-- An in-memory inventory item, as the scripts build it: seven JS values
under the fixed keys id/name/category/qty/unit/location/notes. -/
structure Item where
  id : JsVal
  name : JsVal
  category : JsVal
  qty : JsVal
  unit : JsVal
  location : JsVal
  notes : JsVal
deriving DecidableEq

/-- A raw JS object as read from JSON or from a backend document: the same
seven keys, any of which may be absent (`undef`). -/
structure RawItem where
  id : JsVal := .undef
  name : JsVal := .undef
  category : JsVal := .undef
  qty : JsVal := .undef
  unit : JsVal := .undef
  location : JsVal := .undef
  notes : JsVal := .undef
deriving DecidableEq

/-- An element of a parsed JSON array: `null`/`undefined`, a primitive, or
an object. -/
inductive RawElem where
  | jnull : RawElem
  | jundef : RawElem
  | prim : JsVal → RawElem
  | obj : RawItem → RawElem
deriving DecidableEq

/-- The runtime error raised by a JS property access on null/undefined. -/
inductive JsError where
  | typeError : JsError
deriving DecidableEq

/-- Property access on an array element.  In JS, reading a property of
`null`/`undefined` throws a TypeError; reading one of a primitive yields
`undefined`; reading one of an object yields the field. -/
def RawElem.fields? : RawElem → Except JsError RawItem
  | .jnull => .error .typeError
  | .jundef => .error .typeError
  | .prim _ => .ok {}
  | .obj r => .ok r

/-- View an item as the raw record it serializes to (all seven keys,
including the identifier), as in `JSON.stringify(inventory)`. -/
def itemToRaw (it : Item) : RawItem :=
  ⟨it.id, it.name, it.category, it.qty, it.unit, it.location, it.notes⟩

/-- Read a raw record back as an item field-for-field, as the first
script's localStorage fallback does with `JSON.parse(saved)`. -/
def itemOfRaw (r : RawItem) : Item :=
  ⟨r.id, r.name, r.category, r.qty, r.unit, r.location, r.notes⟩

/-- `({id, ...rest}) => rest`: drop the identifier for transmission, as in
the second and third script variants. -/
def stripBC (it : Item) : RawItem :=
  ⟨.undef, it.name, it.category, it.qty, it.unit, it.location, it.notes⟩

/-- The normalization mapping of the first script variant (script.js
lines 243-253 and 520-530): keep a provided id, otherwise use
`Date.now().toString()` (passed here as `now`); default text fields to
the empty string; keep `qty` only when it is a number, else 0. -/
def normScriptA (r : RawItem) (now : String) : Item :=
  ⟨jsOr r.id (.str now),
   jsOr r.name (.str ""),
   jsOr r.category (.str ""),
   (if isNumberVal r.qty then r.qty else jnum 0 0),
   jsOr r.unit (.str ""),
   jsOr r.location (.str ""),
   jsOr r.notes (.str "")⟩

/-- `normScriptA` on an array element: the field accesses throw on a
null/undefined element. -/
def normScriptAElem (e : RawElem) (now : String) : Except JsError Item :=
  (e.fields?).map (fun r => normScriptA r now)

/-- The normalization mapping of part_001 (lines 85-93 and 296-304): keep
a provided id, otherwise `generateId()` (passed as `gid`); default text
fields to the empty string; `qty` is `Number(it.qty || 0)`. -/
def normP1 (r : RawItem) (gid : String) : Item :=
  ⟨jsOr r.id (.str gid),
   jsOr r.name (.str ""),
   jsOr r.category (.str ""),
   .num (toNumber (jsOr r.qty (jnum 0 0))),
   jsOr r.unit (.str ""),
   jsOr r.location (.str ""),
   jsOr r.notes (.str "")⟩

/-- The normalization mapping of the second and third script variants
(script.js lines 732-742, 986-995, 1241-1251, 1485-1494): always a fresh
`generateId()` (passed as `gid`); other fields as in `normScriptA`. -/
def normBC (r : RawItem) (gid : String) : Item :=
  ⟨.str gid,
   jsOr r.name (.str ""),
   jsOr r.category (.str ""),
   (if isNumberVal r.qty then r.qty else jnum 0 0),
   jsOr r.unit (.str ""),
   jsOr r.location (.str ""),
   jsOr r.notes (.str "")⟩

/-- `inventory = data.map(...)` of script.js `handleImport` (lines
512-536): normalize every element; a thrown TypeError is caught by the
surrounding try, the import is aborted with an alert and the in-memory
collection stays as it was.  The Bool records whether the import failed. -/
def handleImportA (inv : List Item) (data : List RawElem) (now : String) :
    List Item × Bool :=
  match data.mapM (fun e => normScriptAElem e now) with
  | .ok items => (items, false)
  | .error _ => (inv, true)

/-- The state of the GitHub-stored JSON document: whether the file exists,
its current revision token (`sha`, modelled as a counter) and its stored
record array. -/
structure Remote where
  present : Bool
  sha : Nat
  content : List RawItem
deriving DecidableEq

/-- Outcome of a GitHub contents PUT. -/
inductive PutResult where
  | ok : Nat → PutResult
  | rejected : PutResult
deriving DecidableEq

/-- The GitHub contents API PUT: an existing file is replaced only when
the supplied `sha` matches the current one (otherwise the concurrency
check fails with a conflict); a missing file is created only when no
`sha` is supplied.  A successful write advances the revision token. -/
def ghPut (payload : List RawItem) (givenSha : Option Nat) (r : Remote) :
    PutResult × Remote :=
  if r.present then
    match givenSha with
    | some s =>
      if s = r.sha then (.ok (r.sha + 1), ⟨true, r.sha + 1, payload⟩)
      else (.rejected, r)
    | none => (.rejected, r)
  else
    match givenSha with
    | none => (.ok (r.sha + 1), ⟨true, r.sha + 1, payload⟩)
    | some _ => (.rejected, r)

/-- `getRemoteFileSha` (script.js lines 74-96): the current sha of the
remote file, or null when it does not exist. -/
def getRemoteFileSha (r : Remote) : Option Nat :=
  if r.present then some r.sha else none

/-- What a call to the first script's `updateRemoteData` did: whether the
PUT succeeded, which sha it sent, and the remote state afterwards. -/
structure UpdateOutcome where
  success : Bool
  sentSha : Option Nat
  remote : Remote
deriving DecidableEq

/-- `updateRemoteData` of the first script variant (script.js lines
106-139): fetch the file's current sha, then PUT the full inventory
(ids included, `JSON.stringify(inventory)`) with that sha attached when
one exists.  No token is held between calls. -/
def updateRemoteDataA (inv : List Item) (r : Remote) : UpdateOutcome :=
  let sha := getRemoteFileSha r
  let payload := inv.map itemToRaw
  match ghPut payload sha r with
  | (.ok _, r2) => ⟨true, sha, r2⟩
  | (.rejected, r2) => ⟨false, sha, r2⟩

/-- `updateRemoteData` of the third script variant (lines 1195-1235):
as `updateRemoteDataA` but the payload is the id-stripped record list. -/
def updateRemoteDataC (inv : List Item) (r : Remote) : UpdateOutcome :=
  let sha := getRemoteFileSha r
  let payload := inv.map stripBC
  match ghPut payload sha r with
  | (.ok _, r2) => ⟨true, sha, r2⟩
  | (.rejected, r2) => ⟨false, sha, r2⟩

/-- The single localStorage slot used by the first script variant
(`homeInventoryData`), holding a serialized record array when set. -/
structure LocalCache where
  slot : Option (List RawItem)
deriving DecidableEq

/-- A storage operation performed by a persist call, in order. -/
inductive StoreOp where
  | localWrite : List RawItem → StoreOp
  | remoteGetSha : StoreOp
  | remotePut : List RawItem → Option Nat → StoreOp
deriving DecidableEq

/-- Result of a persist call: the cache and remote afterwards, plus the
ordered storage operations it performed. -/
structure PersistOutcome where
  cache : LocalCache
  remote : Remote
  ops : List StoreOp
deriving DecidableEq

/-- `saveInventory` of the first script variant (script.js lines 271-278):
always write the full inventory to localStorage, then trigger
`updateRemoteData` when remote storage is enabled and a token is set. -/
def saveInventoryA (enabled tokenPresent : Bool) (inv : List Item)
    (_cache : LocalCache) (r : Remote) : PersistOutcome :=
  let payload := inv.map itemToRaw
  if enabled && tokenPresent then
    let u := updateRemoteDataA inv r
    ⟨⟨some payload⟩, u.remote,
     [.localWrite payload, .remoteGetSha, .remotePut payload u.sentSha]⟩
  else
    ⟨⟨some payload⟩, r, [.localWrite payload]⟩

/-- `saveInventory` of the third script variant (script.js lines
1258-1262): only call `updateRemoteData` when enabled; the local cache is
never touched. -/
def saveInventoryC (enabled tokenPresent : Bool) (inv : List Item)
    (cache : LocalCache) (r : Remote) : PersistOutcome :=
  if enabled then
    if tokenPresent then
      let u := updateRemoteDataC inv r
      ⟨cache, u.remote, [.remoteGetSha, .remotePut (inv.map stripBC) u.sentSha]⟩
    else ⟨cache, r, []⟩
  else ⟨cache, r, []⟩

/-- The part_001 coordinator's mutable state: the in-memory collection and
the last-known revision token `currentSha`. -/
structure P1State where
  inventory : List Item
  currentSha : Option Nat
deriving DecidableEq

/-- Whether a part_001 save succeeded or ended in the alert branch. -/
inductive SaveResult where
  | success : SaveResult
  | failure : SaveResult
deriving DecidableEq

/-- Result of part_001 `saveInventory`: the reported outcome, the
coordinator state and remote afterwards, and the storage operations. -/
structure P1Outcome where
  result : SaveResult
  state : P1State
  remote : Remote
  ops : List StoreOp
deriving DecidableEq

/-- `saveInventory` of part_001 (lines 103-112): PUT the full record list
(ids included) with the held `currentSha`; on success remember the new
sha; on a thrown failure (ghPutFile raises on a non-ok response) alert
and leave everything as it was.  There is exactly one PUT and no retry. -/
def saveInventoryP1 (s : P1State) (r : Remote) : P1Outcome :=
  let data := s.inventory.map itemToRaw
  match ghPut data s.currentSha r with
  | (.ok newSha, r2) =>
    ⟨.success, { s with currentSha := some newSha }, r2,
     [.remotePut data s.currentSha]⟩
  | (.rejected, r2) =>
    ⟨.failure, s, r2, [.remotePut data s.currentSha]⟩

/-- Reading the localStorage fallback of the first script variant
(lines 260-261): the saved records are used directly as the inventory. -/
def cacheLoad (cache : LocalCache) : List Item :=
  match cache.slot with
  | some saved => saved.map itemOfRaw
  | none => []

/-- `loadInventory` of the first script variant (script.js lines 238-262):
when remote storage is configured, try the remote document first; a
non-null array wins, is normalized and also mirrored into localStorage;
otherwise fall back to localStorage, and to an empty collection when the
cache is empty.  `remoteData` is the result of `fetchRemoteData` (`none`
models every silent read failure: network error, non-ok status,
non-array payload). -/
def loadInventoryA (enabled tokenPresent : Bool)
    (remoteData : Option (List RawElem)) (cache : LocalCache) (now : String) :
    Except JsError (List Item × LocalCache) :=
  if enabled && tokenPresent then
    match remoteData with
    | some arr =>
      match arr.mapM (fun e => normScriptAElem e now) with
      | .ok items => .ok (items, ⟨some (items.map itemToRaw)⟩)
      | .error err => .error err
    | none => .ok (cacheLoad cache, cache)
  else .ok (cacheLoad cache, cache)

/-- Normalize a remote array with the fresh-id mapping of the second and
third variants, drawing identifiers from the supply `gids`. -/
def normBCList (gids : Nat → String) : Nat → List RawElem →
    Except JsError (List Item)
  | _, [] => .ok []
  | i, e :: rest => do
    let r ← e.fields?
    let tl ← normBCList gids (i + 1) rest
    .ok (normBC r (gids i) :: tl)

/-- `loadInventory` of the third script variant (script.js lines
1237-1256): when enabled, a non-null remote array is normalized with
fresh identifiers; in every other case the inventory is empty.  No local
cache is consulted and nothing is mirrored. -/
def loadInventoryC (enabled : Bool) (remoteData : Option (List RawElem))
    (gids : Nat → String) : Except JsError (List Item) :=
  if enabled then
    match remoteData with
    | some arr => normBCList gids 0 arr
    | none => .ok []
  else .ok []

/-- The lowercased search haystack of the first and third script variants
(lines 330 and 793/1293): name and notes joined by a space. -/
def haystackA (it : Item) : String :=
  lowerStr (jsToStr it.name ++ " " ++ jsToStr it.notes)

/-- The filter of the first script variant's `render` (script.js lines
322-334), applied to the already trimmed and lowercased search term: a
selected category must match exactly; a non-empty search term must occur
in the name/notes haystack. -/
def filterA (inv : List Item) (categoryTerm searchTerm : String) : List Item :=
  inv.filter (fun it =>
    if categoryTerm ≠ "" ∧ it.category ≠ JsVal.str categoryTerm then false
    else if searchTerm ≠ "" then strContainsSub (haystackA it) searchTerm
    else true)

/-- The lowercased search haystack of part_001's `render` (line 175):
name, location and notes joined by spaces. -/
def haystackP1 (it : Item) : String :=
  lowerStr (jsToStr it.name ++ " " ++ jsToStr it.location ++ " " ++ jsToStr it.notes)

/-- The row filter of part_001's `render` (lines 172-179), from the raw
search input and the selected category value: the input is trimmed and
lowercased, then both the text and the category condition must hold. -/
def renderRowsP1 (inv : List Item) (searchValue cf : String) : List Item :=
  let q := lowerStr (strTrim searchValue)
  inv.filter (fun it =>
    (decide (q = "") || strContainsSub (haystackP1 it) q) &&
    (decide (cf = "") || decide (it.category = JsVal.str cf)))

/-- Modelled from the spec (§4.4): `filter(collection, categoryTerm,
searchTerm)` keeps the items whose category field equals a non-empty
category term and whose name/notes text contains the search term
case-insensitively; an empty term imposes no filtering of its kind. -/
def specFilter (inv : List Item) (categoryTerm searchTerm : String) : List Item :=
  inv.filter (fun it =>
    (decide (categoryTerm = "") || decide (it.category = JsVal.str categoryTerm)) &&
    (decide (searchTerm = "") ||
     strContainsSub (lowerStr (jsToStr it.name ++ " " ++ jsToStr it.notes))
       (lowerStr searchTerm)))

/-- The form fields of the first script variant, as strings: the hidden id
(empty means "create") and the six visible inputs. -/
structure FormA where
  id : String
  name : String
  category : String
  qty : String
  unit : String
  location : String
  notes : String
deriving DecidableEq

/-- The item built by the first script variant's `handleFormSubmit`
(lines 391-437): trimmed text fields and
`qty = qtyInput.value ? parseFloat(qtyInput.value) : 0`. -/
def mkItemA (theId : String) (f : FormA) : Item :=
  ⟨.str theId,
   .str (strTrim f.name),
   .str (strTrim f.category),
   .num (if f.qty ≠ "" then jsParseFloat f.qty else .finite (Dec.mk' 0 0)),
   .str (strTrim f.unit),
   .str (strTrim f.location),
   .str (strTrim f.notes)⟩

/-- Replace the first item whose id equals `tid` (as
`findIndex` + assignment does), leaving the list unchanged when there is
no match. -/
def updateFirst (tid : String) (g : Item → Item) : List Item → List Item
  | [] => []
  | it :: rest =>
    if it.id = JsVal.str tid then g it :: rest else it :: updateFirst tid g rest

/-- Remove the first item whose id equals `tid` (as
`findIndex` + `splice(idx, 1)` does). -/
def removeFirst (tid : String) : List Item → List Item
  | [] => []
  | it :: rest =>
    if it.id = JsVal.str tid then rest else it :: removeFirst tid rest

/-- `handleFormSubmit` of the first script variant (script.js lines
391-437): reject an empty trimmed name; with a non-empty hidden id,
replace the matching record in place (same id, same position); otherwise
append a new record under a fresh id (`Date.now().toString()`, passed as
`newId`). -/
def handleFormSubmitA (inv : List Item) (f : FormA) (newId : String) : List Item :=
  if strTrim f.name = "" then inv
  else if f.id ≠ "" then updateFirst f.id (fun _ => mkItemA f.id f) inv
  else inv ++ [mkItemA newId f]

/-- `deleteItem` of the first script variant (lines 465-477): nothing
happens without confirmation; otherwise the first matching record is
removed. -/
def deleteItemA (inv : List Item) (tid : String) (confirmed : Bool) : List Item :=
  if confirmed then removeFirst tid inv else inv

/-- The form fields of part_001 (no hidden id; editing state is the
separate `editingId`). -/
structure FormP1 where
  name : String
  category : String
  qty : String
  unit : String
  location : String
  notes : String
deriving DecidableEq

/-- The item built by part_001's add handler (lines 204-219): a fresh id,
trimmed text fields and `qty = Number(els.qty.value || 0)`. -/
def mkItemP1 (gid : String) (f : FormP1) : Item :=
  ⟨.str gid,
   .str (strTrim f.name),
   .str (strTrim f.category),
   .num (toNumber (jsOr (.str f.qty) (jnum 0 0))),
   .str (strTrim f.unit),
   .str (strTrim f.location),
   .str (strTrim f.notes)⟩

/-- part_001's add-button handler (lines 204-219): build the item; when
its name is falsy (`if (!item.name)`, i.e. the trimmed name is empty) the
add is rejected, otherwise the item is pushed. -/
def addBtnP1 (inv : List Item) (f : FormP1) (gid : String) : List Item :=
  let item := mkItemP1 gid f
  if truthy item.name then inv ++ [item] else inv

/-- part_001's update-button handler (lines 221-237): with no editing id
or no matching record nothing changes; otherwise the matched record is
replaced by a spread that keeps its id and overwrites every other field
from the form — with no check on the (possibly empty) trimmed name. -/
def updateBtnP1 (inv : List Item) (editingId : Option String) (f : FormP1) :
    List Item :=
  match editingId with
  | none => inv
  | some eid =>
    updateFirst eid
      (fun old =>
        ⟨old.id,
         .str (strTrim f.name),
         .str (strTrim f.category),
         .num (toNumber (jsOr (.str f.qty) (jnum 0 0))),
         .str (strTrim f.unit),
         .str (strTrim f.location),
         .str (strTrim f.notes)⟩)
      inv

/-- What one run of the first script variant's `updateRemoteData` did,
with its `await`s made explicit: `success` is the PUT outcome, `warned`
records the `console.warn` of the non-ok branch (script.js lines
133-138), `puts` counts the PUT requests issued, and `remote` is the
backend state afterwards. -/
structure AsyncWriteOutcome where
  success : Bool
  warned : Bool
  puts : Nat
  remote : Remote
deriving DecidableEq

/-- `updateRemoteData` of the first script variant (script.js lines
106-139) as the event loop runs it: the sha is fetched at the first
suspension point, against the remote state `rGet`; the PUT happens at the
second, against `rPut` — another writer may commit in between, which is
how the PUT can come back non-ok.  A rejected PUT only logs a console
warning (lines 133-138): no retry, no rollback, no rethrow. -/
def updateRemoteDataAsyncA (inv : List Item) (rGet rPut : Remote) :
    AsyncWriteOutcome :=
  let sha := getRemoteFileSha rGet
  let payload := inv.map itemToRaw
  match ghPut payload sha rPut with
  | (.ok _, r2) => ⟨true, false, 1, r2⟩
  | (.rejected, r2) => ⟨false, true, 1, r2⟩

/-- One call to the first script variant's `saveInventory` (lines
271-278) as its caller observes it.  The localStorage write is
synchronous; `updateRemoteData()` is triggered without `await`, and
`saveInventory` has no return statement and throws nothing, so
`returned` — the only channel back to the caller — is `none` whatever the
detached remote task later does.  Nothing on this path assigns to the
global `inventory`, so the collection after the call is the input one. -/
structure SaveCallViewA where
  returned : Option SaveResult
  inventoryAfter : List Item
  cache : LocalCache
  task : Option AsyncWriteOutcome
deriving DecidableEq

/-- The first script variant's `saveInventory`, caller's view: cache
written unconditionally, the remote task triggered (not awaited) exactly
when remote storage is configured, and `undefined` returned at once. -/
def saveInventoryAsyncA (enabled tokenPresent : Bool) (inv : List Item)
    (rGet rPut : Remote) : SaveCallViewA :=
  if enabled && tokenPresent then
    ⟨none, inv, ⟨some (inv.map itemToRaw)⟩,
     some (updateRemoteDataAsyncA inv rGet rPut)⟩
  else
    ⟨none, inv, ⟨some (inv.map itemToRaw)⟩, none⟩

instance {ε α : Type} [DecidableEq ε] [DecidableEq α] : DecidableEq (Except ε α) :=
  fun a b =>
    match a, b with
    | .ok x, .ok y =>
      if h : x = y then .isTrue (by rw [h]) else .isFalse (by intro hh; cases hh; exact h rfl)
    | .error x, .error y =>
      if h : x = y then .isTrue (by rw [h]) else .isFalse (by intro hh; cases hh; exact h rfl)
    | .ok _, .error _ => .isFalse (by intro hh; cases hh)
    | .error _, .ok _ => .isFalse (by intro hh; cases hh)

theorem jsOr_emptyStr_idem (v : JsVal) :
    jsOr (jsOr v (JsVal.str "")) (JsVal.str "") = jsOr v (JsVal.str "") := by
  by_cases h : truthy v
  · simp [jsOr, h]
  · have hv : jsOr v (JsVal.str "") = JsVal.str "" := by simp [jsOr, h]
    rw [hv]
    decide

theorem normQty_idem (v : JsVal) :
    (if isNumberVal (if isNumberVal v then v else jnum 0 0) then
       (if isNumberVal v then v else jnum 0 0)
     else jnum 0 0) = if isNumberVal v then v else jnum 0 0 := by
  by_cases h : isNumberVal v
  · simp [h]
  · have h0 : isNumberVal (jnum 0 0) = true := rfl
    simp [h, h0]

/-- C9: for every item produced by the load normalization of the variants
that strip identifiers for transmission, normalizing the stripped record
again reproduces the item in every field except the identifier, which is
freshly assigned. -/
theorem c9_normalize_strip_roundtrip (r : RawItem) (g1 g2 : String) :
    normBC (stripBC (normBC r g1)) g2 = { normBC r g1 with id := JsVal.str g2 } := by
  simp [normBC, stripBC, jsOr_emptyStr_idem, normQty_idem]

/-- C10: part_001's update handler accepts a name that is empty after
trimming and stores the item with an empty name, while the add handler
rejects the same form input — the non-empty-name validation guards only
the create path. -/
theorem c10_update_accepts_empty_name :
    updateBtnP1
        [⟨JsVal.str "a", JsVal.str "Flour", JsVal.str "Baking", jnum 2 0,
          JsVal.str "kg", JsVal.str "Pantry", JsVal.str ""⟩]
        (some "a") ⟨"   ", "Baking", "2", "kg", "Pantry", ""⟩ =
      [⟨JsVal.str "a", JsVal.str "", JsVal.str "Baking", jnum 2 0,
        JsVal.str "kg", JsVal.str "Pantry", JsVal.str ""⟩] ∧
    addBtnP1
        [⟨JsVal.str "a", JsVal.str "Flour", JsVal.str "Baking", jnum 2 0,
          JsVal.str "kg", JsVal.str "Pantry", JsVal.str ""⟩]
        ⟨"   ", "Baking", "2", "kg", "Pantry", ""⟩ "fresh" =
      [⟨JsVal.str "a", JsVal.str "Flour", JsVal.str "Baking", jnum 2 0,
        JsVal.str "kg", JsVal.str "Pantry", JsVal.str ""⟩] := by
  decide

/-- C6 counterexample: on a null array element the normalization of
script.js's import throws a TypeError instead of returning a best-effort
item, and the import is aborted with the collection unchanged. -/
theorem c6_counterexample :
    normScriptAElem RawElem.jnull "0" = .error JsError.typeError ∧
    handleImportA
        [⟨JsVal.str "k", JsVal.str "Kept", JsVal.str "", jnum 1 0,
          JsVal.str "", JsVal.str "", JsVal.str ""⟩]
        [RawElem.jnull] "0" =
      ([⟨JsVal.str "k", JsVal.str "Kept", JsVal.str "", jnum 1 0,
         JsVal.str "", JsVal.str "", JsVal.str ""⟩], true) := by
  exact ⟨rfl, by decide⟩

/-- C6 amended: the normalization never throws on an element that is an
object or a primitive — those always yield a best-effort item; only
null/undefined elements throw. -/
theorem c6_amended (e : RawElem) (d : String)
    (h1 : e ≠ RawElem.jnull) (h2 : e ≠ RawElem.jundef) :
    ∃ it : Item, normScriptAElem e d = .ok it := by
  cases e with
  | jnull => exact absurd rfl h1
  | jundef => exact absurd rfl h2
  | prim v => exact ⟨_, rfl⟩
  | obj r => exact ⟨_, rfl⟩

theorem c6_witness :
    (RawElem.prim (jnum 5 0) ≠ RawElem.jnull) ∧
    (RawElem.prim (jnum 5 0) ≠ RawElem.jundef) ∧
    ∃ it : Item, normScriptAElem (RawElem.prim (jnum 5 0)) "w6" = .ok it :=
  ⟨by decide, by decide, c6_amended (RawElem.prim (jnum 5 0)) "w6" (by decide) (by decide)⟩

/-- C7 counterexample: part_001's import coerces `qty` with
`Number(it.qty || 0)`, so a non-numeric string yields NaN rather than a
finite number or the default 0. -/
theorem c7_counterexample :
    (normP1 { qty := JsVal.str "abc" } "g7").qty = JsVal.num JsNum.nan ∧
    JsVal.num JsNum.nan ≠ jnum 0 0 := by
  decide

/-- C7 amended: in script.js's import/load normalization the quantity is
the input value whenever that value is a number (hence finite whenever
the input numbers are, as JSON-parsed ones) and the finite 0 on every
non-number input — numeric-like strings also yield 0, not their value. -/
theorem c7_amended (r : RawItem) (d : String) (h : r.qty ≠ JsVal.num JsNum.nan) :
    ∃ dec : Dec, (normScriptA r d).qty = JsVal.num (JsNum.finite dec) ∧
      (isNumberVal r.qty = false → dec = Dec.mk' 0 0) := by
  cases hq : r.qty with
  | num n =>
    cases n with
    | nan => exact absurd hq h
    | finite dec =>
      refine ⟨dec, ?_, ?_⟩
      · simp [normScriptA, hq, isNumberVal]
      · intro hh
        simp [isNumberVal] at hh
  | undef =>
    exact ⟨Dec.mk' 0 0, by simp [normScriptA, hq, isNumberVal, jnum], fun _ => rfl⟩
  | null =>
    exact ⟨Dec.mk' 0 0, by simp [normScriptA, hq, isNumberVal, jnum], fun _ => rfl⟩
  | str s =>
    exact ⟨Dec.mk' 0 0, by simp [normScriptA, hq, isNumberVal, jnum], fun _ => rfl⟩
  | bool b =>
    exact ⟨Dec.mk' 0 0, by simp [normScriptA, hq, isNumberVal, jnum], fun _ => rfl⟩

theorem c7_witness :
    (({ qty := JsVal.str "1.5" } : RawItem).qty ≠ JsVal.num JsNum.nan) ∧
    ∃ dec : Dec,
      (normScriptA { qty := JsVal.str "1.5" } "w7").qty = JsVal.num (JsNum.finite dec) ∧
      (isNumberVal ({ qty := JsVal.str "1.5" } : RawItem).qty = false → dec = Dec.mk' 0 0) :=
  ⟨by decide, c7_amended { qty := JsVal.str "1.5" } "w7" (by decide)⟩

/-- C8 counterexample: part_001's search also matches the location field —
an item whose location alone contains the term is kept by its render
filter, while the specified name/notes search excludes it. -/
theorem c8_counterexample :
    renderRowsP1
        [⟨JsVal.str "i", JsVal.str "apple", JsVal.str "", jnum 1 0,
          JsVal.str "", JsVal.str "zebra", JsVal.str ""⟩] "zeb" "" =
      [⟨JsVal.str "i", JsVal.str "apple", JsVal.str "", jnum 1 0,
        JsVal.str "", JsVal.str "zebra", JsVal.str ""⟩] ∧
    specFilter
        [⟨JsVal.str "i", JsVal.str "apple", JsVal.str "", jnum 1 0,
          JsVal.str "", JsVal.str "zebra", JsVal.str ""⟩] "" "zeb" = [] := by
  decide

/-- C8 amended: for the script.js variants the claim holds — given an
already lowercased search term, their filter keeps exactly the items with
an exact category match (empty term: no filtering) whose name/notes text
(joined by a space) contains the term case-insensitively. -/
theorem c8_amended (inv : List Item) (ct st : String) (h : lowerStr st = st) :
    filterA inv ct st = specFilter inv ct st := by
  unfold filterA specFilter
  apply List.filter_congr
  intro it _
  by_cases hc : ct = ""
  · by_cases hs : st = ""
    · simp [hc, hs]
    · simp [haystackA, hc, hs, h]
  · by_cases hcat : it.category = JsVal.str ct
    · by_cases hs : st = ""
      · simp [hc, hs, hcat]
      · simp [haystackA, hc, hs, hcat, h]
    · simp [hc, hcat]

theorem c8_witness :
    lowerStr "flo" = "flo" ∧
    filterA
        [⟨JsVal.str "1", JsVal.str "Flour", JsVal.str "Baking", jnum 2 0,
          JsVal.str "kg", JsVal.str "", JsVal.str ""⟩,
         ⟨JsVal.str "2", JsVal.str "Sugar", JsVal.str "Baking", jnum 15 1,
          JsVal.str "kg", JsVal.str "", JsVal.str ""⟩] "Baking" "flo" =
      specFilter
        [⟨JsVal.str "1", JsVal.str "Flour", JsVal.str "Baking", jnum 2 0,
          JsVal.str "kg", JsVal.str "", JsVal.str ""⟩,
         ⟨JsVal.str "2", JsVal.str "Sugar", JsVal.str "Baking", jnum 15 1,
          JsVal.str "kg", JsVal.str "", JsVal.str ""⟩] "Baking" "flo" :=
  ⟨by decide, c8_amended _ "Baking" "flo" (by decide)⟩

theorem updateFirst_map_id (tid : String) (g : Item → Item)
    (hg : ∀ it : Item, it.id = JsVal.str tid → (g it).id = it.id) :
    ∀ l : List Item, (updateFirst tid g l).map Item.id = l.map Item.id := by
  intro l
  induction l with
  | nil => rfl
  | cons it rest ih =>
    by_cases h : it.id = JsVal.str tid
    · simp [updateFirst, h, hg it h]
    · simp [updateFirst, h, ih]

theorem removeFirst_sublist (tid : String) :
    ∀ l : List Item, List.Sublist (removeFirst tid l) l := by
  intro l
  induction l with
  | nil => simp [removeFirst]
  | cons it rest ih =>
    by_cases h : it.id = JsVal.str tid
    · rw [removeFirst]
      simp [h]
    · rw [removeFirst]
      simp only [h, if_neg, ite_false]
      exact ih.cons₂ it

/-- C5 counterexample: importing two records that carry the same explicit
identifier yields a collection whose identifiers are not pairwise
distinct — script.js's import keeps provided ids verbatim. -/
theorem c5_counterexample :
    (handleImportA []
        [RawElem.obj { id := JsVal.str "x" }, RawElem.obj { id := JsVal.str "x" }]
        "9").1.map Item.id = [JsVal.str "x", JsVal.str "x"] ∧
    ¬ ((handleImportA []
        [RawElem.obj { id := JsVal.str "x" }, RawElem.obj { id := JsVal.str "x" }]
        "9").1.map Item.id).Nodup := by
  decide

/-- C5 amended: identifiers are stable — the form-submit update path
preserves the identifier list exactly and delete only removes entries —
and create/update/delete preserve pairwise-distinct identifiers when the
generated identifier is fresh; only import (and load) of records with
duplicate or missing ids can break distinctness. -/
theorem c5_amended (inv : List Item) (f : FormA) (newId tid : String) (c : Bool)
    (hnodup : (inv.map Item.id).Nodup) (hfresh : JsVal.str newId ∉ inv.map Item.id) :
    ((handleFormSubmitA inv f newId).map Item.id).Nodup ∧
    ((deleteItemA inv tid c).map Item.id).Nodup ∧
    (f.id ≠ "" → (handleFormSubmitA inv f newId).map Item.id = inv.map Item.id) ∧
    List.Sublist ((deleteItemA inv tid c).map Item.id) (inv.map Item.id) := by
  have hsub : List.Sublist ((deleteItemA inv tid c).map Item.id) (inv.map Item.id) := by
    unfold deleteItemA
    by_cases hc : c
    · simp only [hc, if_true]
      exact (removeFirst_sublist tid inv).map Item.id
    · simp [hc]
  have hupd : ∀ fid : String, fid ≠ "" →
      (updateFirst fid (fun _ => mkItemA fid f) inv).map Item.id = inv.map Item.id := by
    intro fid _
    exact updateFirst_map_id fid _ (fun it h => by simp [mkItemA, h]) inv
  refine ⟨?_, ?_, ?_, hsub⟩
  · unfold handleFormSubmitA
    by_cases hname : strTrim f.name = ""
    · simpa [hname] using hnodup
    · by_cases hid : f.id = ""
      · rw [if_neg hname, if_neg (fun hh => hh hid)]
        rw [List.map_append]
        refine (List.perm_append_singleton _ _).nodup_iff.mpr ?_
        refine List.nodup_cons.mpr ⟨?_, hnodup⟩
        simpa [mkItemA] using hfresh
      · rw [if_neg (by simp [hname]), if_pos (by simp [hid])]
        rw [hupd f.id hid]
        exact hnodup
  · exact List.Nodup.sublist hsub hnodup
  · intro hid
    unfold handleFormSubmitA
    by_cases hname : strTrim f.name = ""
    · simp [hname]
    · rw [if_neg (by simp [hname]), if_pos (by simp [hid])]
      exact hupd f.id hid

theorem c5_witness :
    (([⟨JsVal.str "a", JsVal.str "Flour", JsVal.str "", jnum 2 0,
        JsVal.str "", JsVal.str "", JsVal.str ""⟩] : List Item).map Item.id).Nodup ∧
    JsVal.str "n1" ∉
      ([⟨JsVal.str "a", JsVal.str "Flour", JsVal.str "", jnum 2 0,
         JsVal.str "", JsVal.str "", JsVal.str ""⟩] : List Item).map Item.id ∧
    (((handleFormSubmitA
        [⟨JsVal.str "a", JsVal.str "Flour", JsVal.str "", jnum 2 0,
          JsVal.str "", JsVal.str "", JsVal.str ""⟩]
        ⟨"", "Sugar", "Baking", "1.5", "kg", "", ""⟩ "n1").map Item.id).Nodup ∧
     ((deleteItemA
        [⟨JsVal.str "a", JsVal.str "Flour", JsVal.str "", jnum 2 0,
          JsVal.str "", JsVal.str "", JsVal.str ""⟩] "z" true).map Item.id).Nodup ∧
     ((⟨"", "Sugar", "Baking", "1.5", "kg", "", ""⟩ : FormA).id ≠ "" →
       (handleFormSubmitA
        [⟨JsVal.str "a", JsVal.str "Flour", JsVal.str "", jnum 2 0,
          JsVal.str "", JsVal.str "", JsVal.str ""⟩]
        ⟨"", "Sugar", "Baking", "1.5", "kg", "", ""⟩ "n1").map Item.id =
        ([⟨JsVal.str "a", JsVal.str "Flour", JsVal.str "", jnum 2 0,
           JsVal.str "", JsVal.str "", JsVal.str ""⟩] : List Item).map Item.id) ∧
     List.Sublist
       ((deleteItemA
          [⟨JsVal.str "a", JsVal.str "Flour", JsVal.str "", jnum 2 0,
            JsVal.str "", JsVal.str "", JsVal.str ""⟩] "z" true).map Item.id)
       (([⟨JsVal.str "a", JsVal.str "Flour", JsVal.str "", jnum 2 0,
           JsVal.str "", JsVal.str "", JsVal.str ""⟩] : List Item).map Item.id)) :=
  ⟨by decide, by decide,
   c5_amended
     [⟨JsVal.str "a", JsVal.str "Flour", JsVal.str "", jnum 2 0,
       JsVal.str "", JsVal.str "", JsVal.str ""⟩]
     ⟨"", "Sugar", "Baking", "1.5", "kg", "", ""⟩ "n1" "z" true
     (by decide) (by decide)⟩

/-- C4 counterexample: the third script variant's `loadInventory` yields
the empty collection when the remote read fails, even though the generic
local cache holds data the claimed fallback order would have returned. -/
theorem c4_counterexample :
    loadInventoryC true none (fun _ => "g") = .ok ([] : List Item) ∧
    cacheLoad ⟨some [{ id := JsVal.str "a", name := JsVal.str "Flour" }]⟩ =
      [itemOfRaw { id := JsVal.str "a", name := JsVal.str "Flour" }] ∧
    ([] : List Item) ≠ [itemOfRaw { id := JsVal.str "a", name := JsVal.str "Flour" }] := by
  refine ⟨rfl, rfl, by decide⟩

/-- C4 amended: for the first script variant's `loadInventory` the claim
holds — the configured remote is tried first and a non-null array wins
and is mirrored into the local cache; on remote failure the cache wins;
with neither, the collection is empty. -/
theorem c4_amended (arr : List RawElem) (items : List Item) (cache : LocalCache)
    (now : String) (saved : List RawItem)
    (hnorm : arr.mapM (fun e => normScriptAElem e now) = .ok items) :
    loadInventoryA true true (some arr) cache now =
      .ok (items, ⟨some (items.map itemToRaw)⟩) ∧
    loadInventoryA true true none ⟨some saved⟩ now =
      .ok (saved.map itemOfRaw, ⟨some saved⟩) ∧
    loadInventoryA true true none ⟨none⟩ now = .ok ([], ⟨none⟩) := by
  refine ⟨?_, ?_, ?_⟩
  · have hdef : loadInventoryA true true (some arr) cache now =
        match arr.mapM (fun e => normScriptAElem e now) with
        | .ok items => .ok (items, ⟨some (items.map itemToRaw)⟩)
        | .error err => .error err := rfl
    rw [hdef, hnorm]
  · rfl
  · rfl

theorem c4_witness :
    (([RawElem.obj { name := JsVal.str "Flour" }] : List RawElem).mapM
        (fun e => normScriptAElem e "7") =
      .ok [⟨JsVal.str "7", JsVal.str "Flour", JsVal.str "", jnum 0 0,
            JsVal.str "", JsVal.str "", JsVal.str ""⟩]) ∧
    (loadInventoryA true true (some [RawElem.obj { name := JsVal.str "Flour" }])
        ⟨none⟩ "7" =
      .ok ([⟨JsVal.str "7", JsVal.str "Flour", JsVal.str "", jnum 0 0,
             JsVal.str "", JsVal.str "", JsVal.str ""⟩],
           ⟨some ([⟨JsVal.str "7", JsVal.str "Flour", JsVal.str "", jnum 0 0,
                    JsVal.str "", JsVal.str "", JsVal.str ""⟩].map itemToRaw)⟩) ∧
     loadInventoryA true true none ⟨some [{ name := JsVal.str "Flour" }]⟩ "7" =
      .ok (([{ name := JsVal.str "Flour" }] : List RawItem).map itemOfRaw,
           ⟨some [{ name := JsVal.str "Flour" }]⟩) ∧
     loadInventoryA true true none ⟨none⟩ "7" = .ok ([], ⟨none⟩)) :=
  ⟨by decide,
   c4_amended [RawElem.obj { name := JsVal.str "Flour" }]
     [⟨JsVal.str "7", JsVal.str "Flour", JsVal.str "", jnum 0 0,
       JsVal.str "", JsVal.str "", JsVal.str ""⟩]
     ⟨none⟩ "7" [{ name := JsVal.str "Flour" }] (by decide)⟩

/-- C3 counterexample: the third script variant's `saveInventory` performs
a remote write but leaves the local persistent cache untouched — the
claimed unconditional local write does not happen there. -/
theorem c3_counterexample :
    (saveInventoryC true true
        [⟨JsVal.str "a", JsVal.str "Flour", JsVal.str "", jnum 2 0,
          JsVal.str "", JsVal.str "", JsVal.str ""⟩]
        ⟨none⟩ ⟨true, 1, []⟩).cache = (⟨none⟩ : LocalCache) ∧
    (⟨none⟩ : LocalCache) ≠
      ⟨some (([⟨JsVal.str "a", JsVal.str "Flour", JsVal.str "", jnum 2 0,
               JsVal.str "", JsVal.str "", JsVal.str ""⟩] : List Item).map itemToRaw)⟩ := by
  refine ⟨rfl, by decide⟩

theorem updateRemoteDataA_sentSha (inv : List Item) (r : Remote) :
    (updateRemoteDataA inv r).sentSha = getRemoteFileSha r := by
  unfold updateRemoteDataA
  cases hp : ghPut (inv.map itemToRaw) (getRemoteFileSha r) r with
  | mk res r2 => cases res <;> simp [hp]

/-- C3 amended: for the first script variant's `saveInventory` the claim
holds — the full collection is written to the local cache unconditionally
and first, and the remote write is attempted (after it) exactly when
remote storage is configured; the unconfigured case leaves the remote
untouched. -/
theorem c3_amended (e t : Bool) (inv : List Item) (cache : LocalCache) (r : Remote) :
    (saveInventoryA e t inv cache r).cache = ⟨some (inv.map itemToRaw)⟩ ∧
    (saveInventoryA e t inv cache r).ops.head? =
      some (StoreOp.localWrite (inv.map itemToRaw)) ∧
    ((e && t) = false → (saveInventoryA e t inv cache r).remote = r ∧
      (saveInventoryA e t inv cache r).ops = [StoreOp.localWrite (inv.map itemToRaw)]) ∧
    ((e && t) = true → (saveInventoryA e t inv cache r).ops =
      [StoreOp.localWrite (inv.map itemToRaw), StoreOp.remoteGetSha,
       StoreOp.remotePut (inv.map itemToRaw) (getRemoteFileSha r)]) := by
  by_cases h : (e && t) = true
  · simp [saveInventoryA, h, updateRemoteDataA_sentSha]
  · have h2 : (e && t) = false := by
      cases he : e && t
      · rfl
      · exact absurd he h
    simp [saveInventoryA, h2]

theorem c3_witness :
    (saveInventoryA true true [] ⟨none⟩ ⟨false, 0, []⟩).cache =
      ⟨some (([] : List Item).map itemToRaw)⟩ ∧
    (saveInventoryA true true [] ⟨none⟩ ⟨false, 0, []⟩).ops.head? =
      some (StoreOp.localWrite (([] : List Item).map itemToRaw)) ∧
    ((true && true) = false →
      (saveInventoryA true true [] ⟨none⟩ ⟨false, 0, []⟩).remote = ⟨false, 0, []⟩ ∧
      (saveInventoryA true true [] ⟨none⟩ ⟨false, 0, []⟩).ops =
        [StoreOp.localWrite (([] : List Item).map itemToRaw)]) ∧
    ((true && true) = true →
      (saveInventoryA true true [] ⟨none⟩ ⟨false, 0, []⟩).ops =
        [StoreOp.localWrite (([] : List Item).map itemToRaw), StoreOp.remoteGetSha,
         StoreOp.remotePut (([] : List Item).map itemToRaw)
           (getRemoteFileSha ⟨false, 0, []⟩)]) :=
  c3_amended true true [] ⟨none⟩ ⟨false, 0, []⟩

/-- C1 counterexample: script.js's `updateRemoteData` holds no token, so
after another writer advances the document from revision 1 to revision 2,
its write fetches the fresh sha, succeeds, and replaces the remote
content with the coordinator's own stale data — a blind overwrite of a
revision that changed since the coordinator's last read. -/
theorem c1_counterexample :
    ghPut [{ name := JsVal.str "B" }] (some 1) ⟨true, 1, [{ name := JsVal.str "A" }]⟩ =
      (PutResult.ok 2, ⟨true, 2, [{ name := JsVal.str "B" }]⟩) ∧
    (2 : Nat) ≠ 1 ∧
    (updateRemoteDataA
        [⟨JsVal.str "L", JsVal.str "Milk", JsVal.str "", jnum 1 0,
          JsVal.str "", JsVal.str "", JsVal.str ""⟩]
        ⟨true, 2, [{ name := JsVal.str "B" }]⟩).success = true ∧
    (updateRemoteDataA
        [⟨JsVal.str "L", JsVal.str "Milk", JsVal.str "", jnum 1 0,
          JsVal.str "", JsVal.str "", JsVal.str ""⟩]
        ⟨true, 2, [{ name := JsVal.str "B" }]⟩).remote.content =
      [⟨JsVal.str "L", JsVal.str "Milk", JsVal.str "", jnum 1 0,
        JsVal.str "", JsVal.str "", JsVal.str ""⟩].map itemToRaw ∧
    [⟨JsVal.str "L", JsVal.str "Milk", JsVal.str "", jnum 1 0,
      JsVal.str "", JsVal.str "", JsVal.str ""⟩].map itemToRaw ≠
      [{ name := JsVal.str "B" }] := by
  decide

/-- C1 amended: only part_001's coordinator includes its held last-known
token in the write, and with a stale token the write is rejected and the
remote document is left unchanged — that variant never blindly
overwrites a revision that changed since its last read. -/
theorem c1_amended (s : P1State) (r : Remote)
    (hp : r.present = true) (hs : s.currentSha ≠ some r.sha) :
    (saveInventoryP1 s r).result = SaveResult.failure ∧
    (saveInventoryP1 s r).remote = r := by
  have hrej : ghPut (s.inventory.map itemToRaw) s.currentSha r = (.rejected, r) := by
    unfold ghPut
    rw [hp]
    cases hcs : s.currentSha with
    | none => simp
    | some v =>
      have hv : ¬ v = r.sha := by
        intro hh
        exact hs (by rw [hcs, hh])
      simp [hv]
  exact ⟨by simp [saveInventoryP1, hrej], by simp [saveInventoryP1, hrej]⟩

theorem c1_witness :
    ((⟨true, 3, []⟩ : Remote).present = true) ∧
    ((⟨[], some 1⟩ : P1State).currentSha ≠ some (⟨true, 3, []⟩ : Remote).sha) ∧
    ((saveInventoryP1 ⟨[], some 1⟩ ⟨true, 3, []⟩).result = SaveResult.failure ∧
     (saveInventoryP1 ⟨[], some 1⟩ ⟨true, 3, []⟩).remote = ⟨true, 3, []⟩) :=
  ⟨rfl, by decide, c1_amended ⟨[], some 1⟩ ⟨true, 3, []⟩ rfl (by decide)⟩


theorem updateRemoteDataAsyncA_agrees (inv : List Item) (r : Remote) :
    (updateRemoteDataAsyncA inv r r).success = (updateRemoteDataA inv r).success ∧
    (updateRemoteDataAsyncA inv r r).remote = (updateRemoteDataA inv r).remote := by
  unfold updateRemoteDataAsyncA updateRemoteDataA
  cases hp : ghPut (inv.map itemToRaw) (getRemoteFileSha r) r with
  | mk res r2 => cases res <;> simp [hp]

/-- C2 counterexample: a rejected remote write of script.js's persist
(another writer committed between the sha fetch and the PUT, so the PUT
carries a stale token and is rejected) reaches no caller — `saveInventory`
triggered the write without awaiting it and returned `undefined`, and the
detached task only logs a console warning, so the operation does not end
in a failure reported to the caller. -/
theorem c2_counterexample :
    (saveInventoryAsyncA true true
        [⟨JsVal.str "c", JsVal.str "Cheese", JsVal.str "", jnum 3 0,
          JsVal.str "", JsVal.str "", JsVal.str ""⟩]
        ⟨true, 4, []⟩ ⟨true, 6, []⟩).task =
      some ⟨false, true, 1, ⟨true, 6, []⟩⟩ ∧
    (saveInventoryAsyncA true true
        [⟨JsVal.str "c", JsVal.str "Cheese", JsVal.str "", jnum 3 0,
          JsVal.str "", JsVal.str "", JsVal.str ""⟩]
        ⟨true, 4, []⟩ ⟨true, 6, []⟩).returned = none ∧
    (saveInventoryAsyncA true true
        [⟨JsVal.str "c", JsVal.str "Cheese", JsVal.str "", jnum 3 0,
          JsVal.str "", JsVal.str "", JsVal.str ""⟩]
        ⟨true, 4, []⟩ ⟨true, 6, []⟩).returned ≠ some SaveResult.failure := by
  decide

/-- C2 amended: every rejected persist performs exactly one PUT (no
automatic retry) and leaves the in-memory collection — and, for part_001,
the held token — unchanged by the failure itself.  The failure is
surfaced only by part_001's awaited save, which ends in the reported
failure state (its alert); script.js's saveInventory triggers the remote
write fire-and-forget and returns nothing, so a rejection there is only
logged as a console warning and no failure reaches the caller. -/
theorem c2_amended (s : P1State) (r : Remote) (inv : List Item) (rGet rPut : Remote)
    (hrejP1 : (ghPut (s.inventory.map itemToRaw) s.currentSha r).1 = PutResult.rejected)
    (hrejA : (ghPut (inv.map itemToRaw) (getRemoteFileSha rGet) rPut).1 = PutResult.rejected) :
    (saveInventoryP1 s r).result = SaveResult.failure ∧
    (saveInventoryP1 s r).state.inventory = s.inventory ∧
    (saveInventoryP1 s r).state.currentSha = s.currentSha ∧
    (saveInventoryP1 s r).ops =
      [StoreOp.remotePut (s.inventory.map itemToRaw) s.currentSha] ∧
    (saveInventoryAsyncA true true inv rGet rPut).task =
      some ⟨false, true, 1, (ghPut (inv.map itemToRaw) (getRemoteFileSha rGet) rPut).2⟩ ∧
    (saveInventoryAsyncA true true inv rGet rPut).inventoryAfter = inv ∧
    (saveInventoryAsyncA true true inv rGet rPut).returned = none := by
  have hA : (saveInventoryAsyncA true true inv rGet rPut).task =
      some ⟨false, true, 1, (ghPut (inv.map itemToRaw) (getRemoteFileSha rGet) rPut).2⟩ := by
    cases hpA : ghPut (inv.map itemToRaw) (getRemoteFileSha rGet) rPut with
    | mk res r2 =>
      cases res with
      | ok n =>
        rw [hpA] at hrejA
        exact absurd hrejA (by simp)
      | rejected => simp [saveInventoryAsyncA, updateRemoteDataAsyncA, hpA]
  cases hp : ghPut (s.inventory.map itemToRaw) s.currentSha r with
  | mk res r2 =>
    cases res with
    | ok n =>
      rw [hp] at hrejP1
      exact absurd hrejP1 (by simp)
    | rejected =>
      refine ⟨?_, ?_, ?_, ?_, hA, rfl, rfl⟩ <;> simp [saveInventoryP1, hp]

theorem c2_witness :
    ((ghPut (([⟨JsVal.str "m", JsVal.str "Milk", JsVal.str "", jnum 1 0,
               JsVal.str "", JsVal.str "", JsVal.str ""⟩] : List Item).map itemToRaw)
        (some 5) ⟨true, 7, []⟩).1 = PutResult.rejected) ∧
    ((ghPut (([⟨JsVal.str "m", JsVal.str "Milk", JsVal.str "", jnum 1 0,
               JsVal.str "", JsVal.str "", JsVal.str ""⟩] : List Item).map itemToRaw)
        (getRemoteFileSha ⟨true, 1, []⟩) ⟨true, 2, []⟩).1 = PutResult.rejected) ∧
    ((saveInventoryP1
        ⟨[⟨JsVal.str "m", JsVal.str "Milk", JsVal.str "", jnum 1 0,
           JsVal.str "", JsVal.str "", JsVal.str ""⟩], some 5⟩ ⟨true, 7, []⟩).result =
        SaveResult.failure ∧
     (saveInventoryP1
        ⟨[⟨JsVal.str "m", JsVal.str "Milk", JsVal.str "", jnum 1 0,
           JsVal.str "", JsVal.str "", JsVal.str ""⟩], some 5⟩ ⟨true, 7, []⟩).state.inventory =
        [⟨JsVal.str "m", JsVal.str "Milk", JsVal.str "", jnum 1 0,
          JsVal.str "", JsVal.str "", JsVal.str ""⟩] ∧
     (saveInventoryP1
        ⟨[⟨JsVal.str "m", JsVal.str "Milk", JsVal.str "", jnum 1 0,
           JsVal.str "", JsVal.str "", JsVal.str ""⟩], some 5⟩ ⟨true, 7, []⟩).state.currentSha =
        some 5 ∧
     (saveInventoryP1
        ⟨[⟨JsVal.str "m", JsVal.str "Milk", JsVal.str "", jnum 1 0,
           JsVal.str "", JsVal.str "", JsVal.str ""⟩], some 5⟩ ⟨true, 7, []⟩).ops =
        [StoreOp.remotePut
          (([⟨JsVal.str "m", JsVal.str "Milk", JsVal.str "", jnum 1 0,
              JsVal.str "", JsVal.str "", JsVal.str ""⟩] : List Item).map itemToRaw)
          (some 5)] ∧
     (saveInventoryAsyncA true true
        [⟨JsVal.str "m", JsVal.str "Milk", JsVal.str "", jnum 1 0,
          JsVal.str "", JsVal.str "", JsVal.str ""⟩]
        ⟨true, 1, []⟩ ⟨true, 2, []⟩).task =
      some ⟨false, true, 1,
        (ghPut (([⟨JsVal.str "m", JsVal.str "Milk", JsVal.str "", jnum 1 0,
                  JsVal.str "", JsVal.str "", JsVal.str ""⟩] : List Item).map itemToRaw)
          (getRemoteFileSha ⟨true, 1, []⟩) ⟨true, 2, []⟩).2⟩ ∧
     (saveInventoryAsyncA true true
        [⟨JsVal.str "m", JsVal.str "Milk", JsVal.str "", jnum 1 0,
          JsVal.str "", JsVal.str "", JsVal.str ""⟩]
        ⟨true, 1, []⟩ ⟨true, 2, []⟩).inventoryAfter =
      [⟨JsVal.str "m", JsVal.str "Milk", JsVal.str "", jnum 1 0,
        JsVal.str "", JsVal.str "", JsVal.str ""⟩] ∧
     (saveInventoryAsyncA true true
        [⟨JsVal.str "m", JsVal.str "Milk", JsVal.str "", jnum 1 0,
          JsVal.str "", JsVal.str "", JsVal.str ""⟩]
        ⟨true, 1, []⟩ ⟨true, 2, []⟩).returned = none) :=
  ⟨by decide, by decide,
   c2_amended
     ⟨[⟨JsVal.str "m", JsVal.str "Milk", JsVal.str "", jnum 1 0,
        JsVal.str "", JsVal.str "", JsVal.str ""⟩], some 5⟩ ⟨true, 7, []⟩
     [⟨JsVal.str "m", JsVal.str "Milk", JsVal.str "", jnum 1 0,
       JsVal.str "", JsVal.str "", JsVal.str ""⟩]
     ⟨true, 1, []⟩ ⟨true, 2, []⟩ (by decide) (by decide)⟩
